import Mathlib

/-!
# Verification of the Pupil IPC convenience wrappers (`zmq_tools.py`)

Shallow embedding of the classes in `pupil_interface/zmq_tools.py`:
`ZMQ_handler`, `ZMQ_Actor`, `Msg_Receiver`, `Msg_Dispatcher`, `Requester`,
together with a model of the external `msgpack` serializer and of the
external ZMQ REQ-socket discipline that the code relies on.

A publish socket is modelled as the list of messages it has pushed to the
transport; each dispatcher method is a function from that list (plus the
method arguments) to the updated list, mirroring the Python code line by
line.
-/

/-- A message handed to the transport: a topic string and a payload.
Models one `send(topic, payload)` pair of ZMQ frames at the message level. -/
structure Sent (α : Type) where
  topic : String
  payload : α
  deriving DecidableEq, Repr

/-- A Pupil notification: a dict with at least a `subject` field, an optional
`delay` field (absent ↦ `none`), and arbitrary further fields (`extra`).
The numeric `delay` value is modelled as an integer; Python truthiness of
`notification.get('delay', 0)` is `delay.getD 0 ≠ 0`. -/
structure Notification where
  subject : String
  delay : Option Int
  extra : List (String × Int)
  deriving DecidableEq, Repr

/-- `Msg_Dispatcher.send(self, topic, payload)`: pushes one
(topic, serialized payload) message onto the pub socket.  From the source:
`self.socket.send(str(topic), flags=zmq.SNDMORE); self.socket.send(serializer.dumps(payload))`. -/
def Msg_Dispatcher.send (sent : List (Sent α)) (topic : String) (payload : α) :
    List (Sent α) :=
  sent ++ [⟨topic, payload⟩]

/-- `Msg_Dispatcher.notify(self, notification)`, line by line from the source:
```
if notification.get('delay',0):
    self.send("delayed_notify.%s"%notification['subject'],notification)
else:
    self.send("notify.%s"%notification['subject'],notification)
``` -/
def Msg_Dispatcher.notify (sent : List (Sent Notification)) (n : Notification) :
    List (Sent Notification) :=
  if n.delay.getD 0 ≠ 0 then
    Msg_Dispatcher.send sent ("delayed_notify." ++ n.subject) n
  else
    Msg_Dispatcher.send sent ("notify." ++ n.subject) n

/-- A Python `logging.LogRecord` as used by `ZMQ_handler.emit`: only the
`levelname` attribute is inspected, the whole record is the payload. -/
structure LogRecord where
  levelname : String
  msg : String
  deriving DecidableEq, Repr

/-- `ZMQ_handler.emit(self, record)` from the source:
`self.socket.send('logging.%s'%str(record.levelname).lower(), record)`. -/
def ZMQ_handler.emit (sent : List (Sent LogRecord)) (record : LogRecord) :
    List (Sent LogRecord) :=
  Msg_Dispatcher.send sent ("logging." ++ record.levelname.toLower) record

/-! ## ZMQ_Actor construction (the blocking-connect handshake) -/

/-- An event delivered by the ZMQ connection-monitor socket. -/
inductive MonitorEvent where
  | connected
  | connectDelayed
  | other (code : Nat)
  deriving DecidableEq, Repr

/-- Outcome of `ZMQ_Actor.__init__`. -/
inductive InitResult where
  | ok
  | exn (msg : String)
  | blocked
  deriving DecidableEq, Repr

/-- Observable socket state after `ZMQ_Actor.__init__` ran. -/
structure ActorState where
  socketCreated : Bool
  connectCalled : Bool
  socketClosed : Bool
  monitorDisabled : Bool
  deriving DecidableEq, Repr

/-- The `while True` monitor loop of `ZMQ_Actor.__init__`: reads monitor
events until `EVENT_CONNECTED` (break), skipping `EVENT_CONNECT_DELAYED`
(pass), and raising `Exception("ZMQ connection failed")` on anything else.
An exhausted event list models `recv_monitor_message` blocking forever. -/
def waitForConnect : List MonitorEvent → InitResult
  | [] => .blocked
  | .connected :: _ => .ok
  | .connectDelayed :: es => waitForConnect es
  | .other _ :: _ => .exn "ZMQ connection failed"

/-- `ZMQ_Actor.__init__(self, ctx, socket_type, url, block_unitl_connected=True)`
over a given stream of monitor events.  The constructor creates the socket,
connects, and in the blocking mode loops on the monitor; note that the
`raise` path leaves the socket open (`self.socket.close()` is never called
inside `__init__`; only the subclasses' `__del__` finalizers close it). -/
def ZMQ_Actor.init (blockUntilConnected : Bool) (events : List MonitorEvent) :
    InitResult × ActorState :=
  if blockUntilConnected then
    match waitForConnect events with
    | .ok => (.ok, ⟨true, true, false, true⟩)
    | .exn m => (.exn m, ⟨true, true, false, false⟩)
    | .blocked => (.blocked, ⟨true, true, false, false⟩)
  else
    (.ok, ⟨true, true, false, false⟩)

/-! ## Msg_Receiver construction -/

/-- The `topics` argument of `Msg_Receiver.__init__`: either a plain string
(a type error caught by the `assert`) or a sequence of topic strings. -/
inductive TopicsArg where
  | ofStr (s : String)
  | ofList (ts : List String)
  deriving DecidableEq, Repr

/-- Observable outcome of `Msg_Receiver.__init__`. -/
structure ReceiverInit where
  assertFailed : Bool
  socketCreated : Bool
  subs : List String
  deriving DecidableEq, Repr

/-- `Msg_Receiver.__init__(self, ctx, url, topics=(), block_unitl_connected=True)`:
`assert type(topics) != str` runs first (before `super().__init__` creates
the socket); then the socket is created and each topic is subscribed in
iteration order. -/
def Msg_Receiver.init : TopicsArg → ReceiverInit
  | .ofStr _ => ⟨true, false, []⟩
  | .ofList ts => ⟨false, true, ts⟩

/-! ## The Requester and the external REQ-socket discipline -/

/-- Error raised through the REQ socket. `protocolViolation` models the
`zmq.error.ZMQError` (EFSM) that the REQ state machine raises on an
out-of-turn operation; the spec calls it `ProtocolViolation`. -/
inductive ReqError where
  | protocolViolation
  | blocked
  deriving DecidableEq, Repr

/-- Modelled from the spec: the strict one-outstanding-request discipline of
the REQ/REP transport pattern (spec section 4.6) is enforced by the external
ZMQ REQ socket, whose implementation is not part of this repository.  The
socket alternates between a ready state and an awaiting-reply state; `sent`
is the list of messages pushed to the transport and `replies` the queue of
replies that will arrive on the connection. -/
structure ReqSocket (α : Type) where
  awaiting : Bool
  sent : List α
  replies : List α
  deriving DecidableEq, Repr

/-- Modelled from the spec: `socket.send` on a REQ socket.  A second send
before the pending reply is received breaks the request/reply discipline
and fails with the protocol-violation error. -/
def ReqSocket.sendMsg (s : ReqSocket α) (m : α) : Except ReqError (ReqSocket α) :=
  if s.awaiting then .error .protocolViolation
  else .ok { s with awaiting := true, sent := s.sent ++ [m] }

/-- Modelled from the spec: `socket.recv` on a REQ socket: blocks until the
one reply to the outstanding request arrives and returns it; receiving with
no outstanding request is itself a discipline violation. -/
def ReqSocket.recvMsg (s : ReqSocket α) : Except ReqError (α × ReqSocket α) :=
  if s.awaiting then
    match s.replies with
    | r :: rs => .ok (r, { s with awaiting := false, replies := rs })
    | [] => .error .blocked
  else .error .protocolViolation

/-- `Requester.send_cmd(self, cmd)` from the source:
`self.socket.send(cmd); return self.socket.recv()`. -/
def Requester.send_cmd (s : ReqSocket α) (cmd : α) : Except ReqError (α × ReqSocket α) := do
  let s1 ← s.sendMsg cmd
  s1.recvMsg

/-- `Requester.notify(self, notification)` from the source:
```
topic = 'notify.' + notification['subject']
payload = serializer.dumps(notification)
self.socket.send_multipart((topic,payload))
return self.socket.recv()
```
The multipart message is modelled as the (topic, notification) pair
(serialization is the identity at this level of the model). -/
def Requester.notify (s : ReqSocket (String × Notification)) (n : Notification) :
    Except ReqError ((String × Notification) × ReqSocket (String × Notification)) := do
  let topic := "notify." ++ n.subject
  let s1 ← s.sendMsg (topic, n)
  s1.recvMsg

/-! ## The Notification Model of spec section 4.1 -/

/-- Validation failure of the Notification Model. -/
inductive NotificationError where
  | invalidNotification
  deriving DecidableEq, Repr

/-- Input to Notification construction: the given subject, the `subject`
field found in the payload (if any), and the optional `delay` field. -/
structure NotificationInput where
  subject : String
  payloadSubject : Option String
  delay : Option Int
  deriving DecidableEq, Repr

/-- Modelled from the spec: the Notification Model of spec section 4.1 is
specified but absent from the source (`notify` performs no validation), so
its construction contract is taken from the spec's words: constructing a
Notification fails with `InvalidNotification` if `subject` is empty or the
payload's `subject` field disagrees with the given subject; `delay`, if
present, must be ≥ 0, and a negative delay fails with `InvalidNotification`. -/
def mkNotification (inp : NotificationInput) :
    Except NotificationError NotificationInput :=
  if inp.subject = "" then .error .invalidNotification
  else if inp.payloadSubject ≠ some inp.subject then .error .invalidNotification
  else if inp.delay.getD 0 < 0 then .error .invalidNotification
  else .ok inp

/-! ## Theorems about the dispatcher (claims about `notify`) -/

/-- C2: every notification passed to `Msg_Dispatcher.notify`, regardless of
the value or presence of its `delay` field, results in exactly one immediate
send to the transport, carrying the notification itself; nothing is buffered
or deferred. -/
theorem notify_always_one_immediate_send (sent : List (Sent Notification))
    (n : Notification) :
    ∃ m : Sent Notification,
      Msg_Dispatcher.notify sent n = sent ++ [m] ∧ m.payload = n := by
  unfold Msg_Dispatcher.notify Msg_Dispatcher.send
  split
  · exact ⟨_, rfl, rfl⟩
  · exact ⟨_, rfl, rfl⟩

/-- C3: a notification whose `delay` field is absent or zero is sent exactly
once on `notify.<subject>` with the unmodified notification as payload (the
dispatcher keeps no pending state beyond the transport log), and a
notification with a truthy `delay` is sent on `delayed_notify.<subject>`. -/
theorem notify_topic_routing (sent : List (Sent Notification)) (n : Notification) :
    (n.delay.getD 0 = 0 →
      Msg_Dispatcher.notify sent n = sent ++ [⟨"notify." ++ n.subject, n⟩])
    ∧ (n.delay.getD 0 ≠ 0 →
      Msg_Dispatcher.notify sent n = sent ++ [⟨"delayed_notify." ++ n.subject, n⟩]) := by
  constructor
  · intro h
    simp [Msg_Dispatcher.notify, Msg_Dispatcher.send, h]
  · intro h
    simp [Msg_Dispatcher.notify, Msg_Dispatcher.send, h]

/-- Witness for C3 at concrete inputs: delay absent routes to `notify.`,
delay `3` routes to `delayed_notify.`. -/
theorem notify_topic_routing_witness :
    Msg_Dispatcher.notify [] ⟨"recording.started", none, []⟩ =
      [] ++ [⟨"notify." ++ "recording.started", ⟨"recording.started", none, []⟩⟩] ∧
    Msg_Dispatcher.notify [] ⟨"recording.started", some 3, []⟩ =
      [] ++ [⟨"delayed_notify." ++ "recording.started", ⟨"recording.started", some 3, []⟩⟩] :=
  ⟨(notify_topic_routing [] ⟨"recording.started", none, []⟩).1 (by decide),
   (notify_topic_routing [] ⟨"recording.started", some 3, []⟩).2 (by decide)⟩

/-- C1: evaluation at the failing input.  Two notifications with the same
subject `"A"` and the same positive delay, issued back to back (well within
one coalescing window), produce TWO immediate sends on `delayed_notify.A` —
one per call, each with its own payload — rather than the single coalesced
send with the last payload after the delay that the spec (and the function's
own docstring) describe. -/
theorem notify_no_coalescing_two_sends :
    Msg_Dispatcher.notify (Msg_Dispatcher.notify [] ⟨"A", some 1, [("v", 1)]⟩)
        ⟨"A", some 1, [("v", 2)]⟩ =
      [⟨"delayed_notify.A", ⟨"A", some 1, [("v", 1)]⟩⟩,
       ⟨"delayed_notify.A", ⟨"A", some 1, [("v", 2)]⟩⟩] ∧
    (Msg_Dispatcher.notify (Msg_Dispatcher.notify [] ⟨"A", some 1, [("v", 1)]⟩)
        ⟨"A", some 1, [("v", 2)]⟩).length = 2 := by
  constructor
  · rfl
  · rfl

/-- C8: `ZMQ_handler.emit` performs exactly one send, on topic `logging.`
followed by the record's level name lowercased, with the record as payload. -/
theorem emit_logging_topic (sent : List (Sent LogRecord)) (record : LogRecord) :
    ZMQ_handler.emit sent record =
      sent ++ [⟨"logging." ++ record.levelname.toLower, record⟩] := rfl

/-! ## Theorems about construction (`ZMQ_Actor`, `Msg_Receiver`) -/

/-- `waitForConnect` succeeds exactly when the first non-`connectDelayed`
monitor event is `connected`. -/
theorem waitForConnect_ok_iff (events : List MonitorEvent) :
    waitForConnect events = .ok ↔
      (events.dropWhile (fun e => e == MonitorEvent.connectDelayed)).head? =
        some MonitorEvent.connected := by
  induction events with
  | nil => simp [waitForConnect]
  | cons e es ih =>
    cases e with
    | connected => simp [waitForConnect, List.dropWhile_cons, beq_iff_eq]
    | connectDelayed => simpa [waitForConnect, List.dropWhile_cons, beq_iff_eq] using ih
    | other c => simp [waitForConnect, List.dropWhile_cons, beq_iff_eq]

/-- `waitForConnect` raises exactly when the first non-`connectDelayed`
monitor event is neither `connected` nor missing. -/
theorem waitForConnect_exn_iff (events : List MonitorEvent) :
    waitForConnect events = .exn "ZMQ connection failed" ↔
      ∃ c, (events.dropWhile (fun e => e == MonitorEvent.connectDelayed)).head? =
        some (MonitorEvent.other c) := by
  induction events with
  | nil => simp [waitForConnect]
  | cons e es ih =>
    cases e with
    | connected => simp [waitForConnect, List.dropWhile_cons, beq_iff_eq]
    | connectDelayed => simpa [waitForConnect, List.dropWhile_cons, beq_iff_eq] using ih
    | other c => simp [waitForConnect, List.dropWhile_cons, beq_iff_eq]

/-- C7 (amended): with blocking connect enabled, the constructor returns
normally iff a connect event is observed (after zero or more connect-delayed
events) and raises `Exception("ZMQ connection failed")` on any other monitor
event; on no exit path — in particular not on construction failure — does the
constructor itself close the socket (release is left to the destructor). -/
theorem ZMQ_Actor_init_connect_or_fail (events : List MonitorEvent) :
    ((ZMQ_Actor.init true events).1 = .ok ↔
      (events.dropWhile (fun e => e == MonitorEvent.connectDelayed)).head? =
        some MonitorEvent.connected)
    ∧ ((ZMQ_Actor.init true events).1 = .exn "ZMQ connection failed" ↔
      ∃ c, (events.dropWhile (fun e => e == MonitorEvent.connectDelayed)).head? =
        some (MonitorEvent.other c))
    ∧ (ZMQ_Actor.init true events).2.socketClosed = false := by
  refine ⟨?_, ?_, ?_⟩
  · rw [← waitForConnect_ok_iff]
    unfold ZMQ_Actor.init
    cases h : waitForConnect events <;> simp [h]
  · rw [← waitForConnect_exn_iff]
    unfold ZMQ_Actor.init
    cases h : waitForConnect events <;> simp [h]
  · unfold ZMQ_Actor.init
    cases h : waitForConnect events <;> simp [h]

/-- C7 counterexample: on the monitor event stream `[other 42]` (a failed
connection attempt) the blocking constructor raises, yet the socket it
created is NOT closed — refuting "on every exit path, including construction
failure, the underlying socket is released". -/
theorem ZMQ_Actor_init_failure_leaves_socket_open :
    (ZMQ_Actor.init true [.other 42]).1 = .exn "ZMQ connection failed" ∧
    (ZMQ_Actor.init true [.other 42]).2.socketClosed = false := by
  exact ⟨rfl, rfl⟩

/-- C9: passing a plain string as `topics` trips the leading
`assert type(topics) != str` before any socket is created; passing a
sequence creates the socket and subscribes to each element in order. -/
theorem Msg_Receiver_init_topics (arg : TopicsArg) :
    (∀ s, arg = .ofStr s →
      (Msg_Receiver.init arg).assertFailed = true ∧
      (Msg_Receiver.init arg).socketCreated = false)
    ∧ (∀ ts, arg = .ofList ts →
      (Msg_Receiver.init arg).assertFailed = false ∧
      (Msg_Receiver.init arg).socketCreated = true ∧
      (Msg_Receiver.init arg).subs = ts) := by
  cases arg <;> simp [Msg_Receiver.init]

/-- Witness for C9: a string argument fails with no socket; a list argument
subscribes in order. -/
theorem Msg_Receiver_init_topics_witness :
    ((Msg_Receiver.init (.ofStr "notify.")).assertFailed = true ∧
      (Msg_Receiver.init (.ofStr "notify.")).socketCreated = false) ∧
    ((Msg_Receiver.init (.ofList ["logging.", "notify."])).assertFailed = false ∧
      (Msg_Receiver.init (.ofList ["logging.", "notify."])).socketCreated = true ∧
      (Msg_Receiver.init (.ofList ["logging.", "notify."])).subs = ["logging.", "notify."]) :=
  ⟨(Msg_Receiver_init_topics (.ofStr "notify.")).1 "notify." rfl,
   (Msg_Receiver_init_topics (.ofList ["logging.", "notify."])).2 ["logging.", "notify."] rfl⟩

/-! ## Theorems about the Notification Model and the Requester -/

/-- C5: constructing a Notification fails with `InvalidNotification` — and,
validation being pure, no send occurs — exactly when the subject is empty,
or the payload's `subject` field disagrees with the given subject, or a
`delay` field is present and negative; otherwise the input is accepted. -/
theorem mkNotification_invalid_iff (inp : NotificationInput) :
    mkNotification inp = .error .invalidNotification ↔
      (inp.subject = "" ∨ inp.payloadSubject ≠ some inp.subject ∨
        ∃ d, inp.delay = some d ∧ d < 0) := by
  unfold mkNotification
  split_ifs with h1 h2 h3
  · simp [h1]
  · simp [h2]
  · constructor
    · intro _
      refine Or.inr (Or.inr ?_)
      cases hd : inp.delay with
      | none => rw [hd] at h3; simp at h3
      | some d =>
        refine ⟨d, rfl, ?_⟩
        rw [hd] at h3
        simpa using h3
    · intro _
      rfl
  · constructor
    · intro h
      exact absurd h (by simp)
    · rintro (h | h | ⟨d, hd, hdneg⟩)
      · exact absurd h h1
      · exact absurd h h2
      · exact absurd (by rw [hd]; simpa using hdneg) h3

/-- C6: on an idle request/reply connection, `send_cmd` pushes exactly one
message, blocks for exactly one reply and returns it, leaving the connection
idle again; a second raw request issued before the first reply has been
received fails with the protocol-violation error. -/
theorem send_cmd_request_reply {α : Type} (s0 : ReqSocket α) (cmd : α)
    (h : s0.awaiting = false) :
    (∀ r rs, s0.replies = r :: rs →
      ∃ s1, Requester.send_cmd s0 cmd = .ok (r, s1) ∧
        s1.sent = s0.sent ++ [cmd] ∧ s1.awaiting = false ∧ s1.replies = rs)
    ∧ ∀ s1 m, ReqSocket.sendMsg s0 cmd = .ok s1 →
        ReqSocket.sendMsg s1 m = .error .protocolViolation := by
  have hs : s0.sendMsg cmd = .ok { s0 with awaiting := true, sent := s0.sent ++ [cmd] } := by
    simp [ReqSocket.sendMsg, h]
  have hb : Requester.send_cmd s0 cmd =
      ReqSocket.recvMsg { s0 with awaiting := true, sent := s0.sent ++ [cmd] } := by
    unfold Requester.send_cmd
    rw [hs]
    rfl
  constructor
  · intro r rs hr
    refine ⟨{ s0 with awaiting := false, sent := s0.sent ++ [cmd], replies := rs }, ?_, rfl, rfl, rfl⟩
    rw [hb]
    simp [ReqSocket.recvMsg, hr]
  · intro s1 m hok
    rw [hs] at hok
    cases hok
    simp [ReqSocket.sendMsg]

/-- Witness for C6: a concrete idle socket with one queued reply; `send_cmd`
returns that reply after pushing one message, and a second raw send on the
now-awaiting socket fails with the protocol violation. -/
theorem send_cmd_request_reply_witness :
    (∃ s1, Requester.send_cmd (⟨false, [], [7]⟩ : ReqSocket Nat) 5 = .ok (7, s1) ∧
      s1.sent = [] ++ [5] ∧ s1.awaiting = false ∧ s1.replies = []) ∧
    ReqSocket.sendMsg (⟨true, [] ++ [5], [7]⟩ : ReqSocket Nat) 6 = .error .protocolViolation :=
  ⟨(send_cmd_request_reply (⟨false, [], [7]⟩ : ReqSocket Nat) 5 rfl).1 7 [] rfl,
   (send_cmd_request_reply (⟨false, [], [7]⟩ : ReqSocket Nat) 5 rfl).2 ⟨true, [] ++ [5], [7]⟩ 6 rfl⟩

/-- C10: `Requester.notify` always sends on topic `notify.` followed by the
notification's subject — whatever `delay` holds (second conjunct: replacing
the `delay` field by an arbitrary value leaves the topic unchanged); the
`delayed_notify` routing never applies on the request/reply path. -/
theorem Requester_notify_topic (s : ReqSocket (String × Notification))
    (n : Notification) (h : s.awaiting = false) :
    (∀ r rs, s.replies = r :: rs →
      ∃ s1, Requester.notify s n = .ok (r, s1) ∧
        s1.sent = s.sent ++ [("notify." ++ n.subject, n)])
    ∧ ∀ d, ∀ r rs, s.replies = r :: rs →
      ∃ s2, Requester.notify s { n with delay := d } = .ok (r, s2) ∧
        s2.sent = s.sent ++ [("notify." ++ n.subject, { n with delay := d })] := by
  have hb : ∀ m : Notification, Requester.notify s m =
      ReqSocket.recvMsg { s with awaiting := true, sent := s.sent ++ [("notify." ++ m.subject, m)] } := by
    intro m
    have hsend : s.sendMsg ("notify." ++ m.subject, m) =
        .ok { s with awaiting := true, sent := s.sent ++ [("notify." ++ m.subject, m)] } := by
      simp [ReqSocket.sendMsg, h]
    simp only [Requester.notify]
    rw [hsend]
    rfl
  constructor
  · intro r rs hr
    refine ⟨{ s with awaiting := false, sent := s.sent ++ [("notify." ++ n.subject, n)], replies := rs }, ?_, rfl⟩
    rw [hb n]
    simp [ReqSocket.recvMsg, hr]
  · intro d r rs hr
    refine ⟨{ s with awaiting := false, sent := s.sent ++ [("notify." ++ n.subject, { n with delay := d })], replies := rs }, ?_, rfl⟩
    rw [hb { n with delay := d }]
    simp [ReqSocket.recvMsg, hr]

/-- Witness for C10: a notification carrying a positive `delay` is still sent
on `notify.<subject>` by the Requester. -/
theorem Requester_notify_topic_witness :
    ∃ s1, Requester.notify (⟨false, [], [("ok", ⟨"r", none, []⟩)]⟩ :
        ReqSocket (String × Notification)) ⟨"start_plugin", some 2, []⟩ =
      .ok (("ok", ⟨"r", none, []⟩), s1) ∧
      s1.sent = [] ++ [("notify." ++ "start_plugin", ⟨"start_plugin", some 2, []⟩)] :=
  (Requester_notify_topic (⟨false, [], [("ok", ⟨"r", none, []⟩)]⟩ :
      ReqSocket (String × Notification)) ⟨"start_plugin", some 2, []⟩ rfl).1
    ("ok", ⟨"r", none, []⟩) [] rfl

/-! ## The serializer (the external `msgpack` dependency)

`zmq_tools.py` does `import msgpack as serializer` and uses exactly two of
its operations, `serializer.dumps` and `serializer.loads`.  The library is
external to the repository, so its wire format is modelled here concretely:
a serializable value is a nil / bool / int / raw-string / array / map tree,
and `dumps` / `loads` implement the msgpack encoding of such trees (fixint,
negative fixint, uint8/16/32/64, int8/16/32/64, fixstr, str8/16/32,
fixarray, array16/32, fixmap, map16/32).  Strings are kept as their byte
sequences. -/

mutual
inductive MValue where
  | nilv
  | boolv (b : Bool)
  | intv (i : Int)
  | strv (s : List Nat)
  | arrv (vs : MList)
  | mapv (ps : MPairs)
inductive MList where
  | mnil
  | mcons (v : MValue) (vs : MList)
inductive MPairs where
  | pnil
  | pcons (k v : MValue) (ps : MPairs)
end

/-- Number of elements of an `MList`. -/
def MList.mlen : MList → Nat
  | .mnil => 0
  | .mcons _ vs => vs.mlen + 1

/-- Number of key-value pairs of an `MPairs`. -/
def MPairs.plen : MPairs → Nat
  | .pnil => 0
  | .pcons _ _ ps => ps.plen + 1

/-- `k` bytes of `n`, big-endian (most significant byte first). -/
def beBytes : Nat → Nat → List Nat
  | 0, _ => []
  | k + 1, n => (n / 256 ^ k) :: beBytes k (n % 256 ^ k)

/-- Read `k` big-endian bytes off the front of the input, folding them onto
the accumulator. -/
def takeBE : Nat → Nat → List Nat → Option (Nat × List Nat)
  | 0, acc, bs => some (acc, bs)
  | _ + 1, _, [] => none
  | k + 1, acc, b :: bs => takeBE k (acc * 256 + b) bs

/-- Read one byte off the front of the input. -/
def take1 : List Nat → Option (Nat × List Nat)
  | [] => none
  | b :: bs => some (b, bs)

/-- Read `k` raw bytes off the front of the input. -/
def takeN : Nat → List Nat → Option (List Nat × List Nat)
  | 0, bs => some ([], bs)
  | _ + 1, [] => none
  | k + 1, b :: bs =>
    match takeN k bs with
    | some (s, r) => some (b :: s, r)
    | none => none

/-- Two's-complement reading of an unsigned value `n` modulo `m`. -/
def sdec (m : Nat) (n : Nat) : Int :=
  if 2 * n < m then (n : Int) else (n : Int) - (m : Int)

/-- msgpack encoding of an integer, range by range exactly as the packer
chooses formats: positive fixint, uint8/16/32/64 for non-negative values,
negative fixint, int8/16/32/64 for negative values. -/
def encInt (i : Int) : List Nat :=
  if 0 ≤ i then
    if i < 0x80 then [i.toNat]
    else if i < 0x100 then [0xcc, i.toNat]
    else if i < 0x10000 then 0xcd :: beBytes 2 i.toNat
    else if i < 0x100000000 then 0xce :: beBytes 4 i.toNat
    else 0xcf :: beBytes 8 i.toNat
  else
    if -0x20 ≤ i then [(i + 0x100).toNat]
    else if -0x80 ≤ i then [0xd0, (i + 0x100).toNat]
    else if -0x8000 ≤ i then 0xd1 :: beBytes 2 (i + 0x10000).toNat
    else if -0x80000000 ≤ i then 0xd2 :: beBytes 4 (i + 0x100000000).toNat
    else 0xd3 :: beBytes 8 (i + 0x10000000000000000).toNat

mutual
/-- msgpack encoding of a value. -/
def encV : MValue → List Nat
  | .nilv => [0xc0]
  | .boolv false => [0xc2]
  | .boolv true => [0xc3]
  | .intv i => encInt i
  | .strv s =>
    if s.length < 32 then (0xa0 + s.length) :: s
    else if s.length < 0x100 then 0xd9 :: s.length :: s
    else if s.length < 0x10000 then 0xda :: (beBytes 2 s.length ++ s)
    else 0xdb :: (beBytes 4 s.length ++ s)
  | .arrv vs =>
    if vs.mlen < 16 then (0x90 + vs.mlen) :: encL vs
    else if vs.mlen < 0x10000 then 0xdc :: (beBytes 2 vs.mlen ++ encL vs)
    else 0xdd :: (beBytes 4 vs.mlen ++ encL vs)
  | .mapv ps =>
    if ps.plen < 16 then (0x80 + ps.plen) :: encP ps
    else if ps.plen < 0x10000 then 0xde :: (beBytes 2 ps.plen ++ encP ps)
    else 0xdf :: (beBytes 4 ps.plen ++ encP ps)

/-- msgpack encoding of consecutive array elements. -/
def encL : MList → List Nat
  | .mnil => []
  | .mcons v vs => encV v ++ encL vs

/-- msgpack encoding of consecutive map entries (key then value). -/
def encP : MPairs → List Nat
  | .pnil => []
  | .pcons k v ps => encV k ++ encV v ++ encP ps
end

/-- What the decoder is currently reading: one value, `n` consecutive array
elements, or `n` consecutive map entries. -/
inductive DecMode where
  | one
  | many (n : Nat)
  | manyPairs (n : Nat)

/-- Result of one decoding step. -/
inductive DecRes where
  | val (v : MValue)
  | list (vs : MList)
  | pairs (ps : MPairs)

/-- Wrap a decoded element sequence as an array value. -/
def wrapArr : Option (DecRes × List Nat) → Option (DecRes × List Nat)
  | some (.list vs, r) => some (.val (.arrv vs), r)
  | _ => none

/-- Wrap a decoded entry sequence as a map value. -/
def wrapMap : Option (DecRes × List Nat) → Option (DecRes × List Nat)
  | some (.pairs ps, r) => some (.val (.mapv ps), r)
  | _ => none

/-- Wrap decoded raw bytes as a string value. -/
def wrapStr : Option (List Nat × List Nat) → Option (DecRes × List Nat)
  | some (s, r) => some (.val (.strv s), r)
  | none => none

/-- Wrap a decoded unsigned quantity as an integer value via `f`. -/
def wrapInt (f : Nat → Int) : Option (Nat × List Nat) → Option (DecRes × List Nat)
  | some (n, r) => some (.val (.intv (f n)), r)
  | none => none

/-- Read a length, then that many raw string bytes. -/
def strWithLen : Option (Nat × List Nat) → Option (DecRes × List Nat)
  | some (n, r) => wrapStr (takeN n r)
  | none => none

/-- Read a length, then that many elements via `karr`. -/
def arrWithLen (karr : Nat → List Nat → Option (DecRes × List Nat)) :
    Option (Nat × List Nat) → Option (DecRes × List Nat)
  | some (n, r) => wrapArr (karr n r)
  | none => none

/-- Read a length, then that many entries via `kmap`. -/
def mapWithLen (kmap : Nat → List Nat → Option (DecRes × List Nat)) :
    Option (Nat × List Nat) → Option (DecRes × List Nat)
  | some (n, r) => wrapMap (kmap n r)
  | none => none

/-- Decoder dispatch on the first byte of a value, following the msgpack
format byte for byte; `karr` and `kmap` continue into container bodies.
Format families the encoder never produces (bin, float, ext, 0xc1) are
rejected. -/
def decHead (karr kmap : Nat → List Nat → Option (DecRes × List Nat))
    (b : Nat) (bs : List Nat) : Option (DecRes × List Nat) :=
  if b < 0x80 then some (.val (.intv (Int.ofNat b)), bs)
  else if 0xe0 ≤ b then some (.val (.intv ((b : Int) - 0x100)), bs)
  else if b < 0x90 then wrapMap (kmap (b - 0x80) bs)
  else if b < 0xa0 then wrapArr (karr (b - 0x90) bs)
  else if b < 0xc0 then wrapStr (takeN (b - 0xa0) bs)
  else if b = 0xc0 then some (.val .nilv, bs)
  else if b = 0xc2 then some (.val (.boolv false), bs)
  else if b = 0xc3 then some (.val (.boolv true), bs)
  else if b = 0xcc then wrapInt Int.ofNat (take1 bs)
  else if b = 0xcd then wrapInt Int.ofNat (takeBE 2 0 bs)
  else if b = 0xce then wrapInt Int.ofNat (takeBE 4 0 bs)
  else if b = 0xcf then wrapInt Int.ofNat (takeBE 8 0 bs)
  else if b = 0xd0 then wrapInt (sdec 0x100) (take1 bs)
  else if b = 0xd1 then wrapInt (sdec 0x10000) (takeBE 2 0 bs)
  else if b = 0xd2 then wrapInt (sdec 0x100000000) (takeBE 4 0 bs)
  else if b = 0xd3 then wrapInt (sdec 0x10000000000000000) (takeBE 8 0 bs)
  else if b = 0xd9 then strWithLen (take1 bs)
  else if b = 0xda then strWithLen (takeBE 2 0 bs)
  else if b = 0xdb then strWithLen (takeBE 4 0 bs)
  else if b = 0xdc then arrWithLen karr (takeBE 2 0 bs)
  else if b = 0xdd then arrWithLen karr (takeBE 4 0 bs)
  else if b = 0xde then mapWithLen kmap (takeBE 2 0 bs)
  else if b = 0xdf then mapWithLen kmap (takeBE 4 0 bs)
  else none

/-- The fuel-indexed msgpack decoder.  Fuel strictly decreases on every
recursive call, so the definition is structural and computable by the
kernel. -/
def dec : Nat → DecMode → List Nat → Option (DecRes × List Nat)
  | _, .many 0, bs => some (.list .mnil, bs)
  | _, .manyPairs 0, bs => some (.pairs .pnil, bs)
  | 0, _, _ => none
  | _ + 1, .one, [] => none
  | fuel + 1, .one, b :: bs =>
    decHead (fun n r => dec fuel (.many n) r) (fun n r => dec fuel (.manyPairs n) r) b bs
  | fuel + 1, .many (n + 1), bs =>
    match dec fuel .one bs with
    | some (.val v, r) =>
      match dec fuel (.many n) r with
      | some (.list vs, r2) => some (.list (.mcons v vs), r2)
      | _ => none
    | _ => none
  | fuel + 1, .manyPairs (n + 1), bs =>
    match dec fuel .one bs with
    | some (.val k, r) =>
      match dec fuel .one r with
      | some (.val v, r2) =>
        match dec fuel (.manyPairs n) r2 with
        | some (.pairs ps, r3) => some (.pairs (.pcons k v ps), r3)
        | _ => none
      | _ => none
    | _ => none

/-- `serializer.dumps(payload)` of the external msgpack library. -/
def serializer.dumps (payload : MValue) : List Nat :=
  encV payload

/-- `serializer.loads(bytes)` of the external msgpack library: decodes one
value and rejects trailing bytes.  The fuel `2 * length + 1` is an upper
bound on the decoding steps any byte string can need. -/
def serializer.loads (bs : List Nat) : Option MValue :=
  match dec (2 * bs.length + 1) .one bs with
  | some (.val v, []) => some v
  | _ => none

mutual
/-- A value the real msgpack packer can encode without error: integers fit
in int64/uint64, string and container lengths fit in 32 bits, string bytes
are bytes. -/
def validV : MValue → Bool
  | .nilv => true
  | .boolv _ => true
  | .intv i => decide (-0x8000000000000000 ≤ i) && decide (i < 0x10000000000000000)
  | .strv s => decide (s.length < 0x100000000) && s.all (fun b => decide (b < 256))
  | .arrv vs => decide (vs.mlen < 0x100000000) && validL vs
  | .mapv ps => decide (ps.plen < 0x100000000) && validP ps

/-- Validity of every element of an array body. -/
def validL : MList → Bool
  | .mnil => true
  | .mcons v vs => validV v && validL vs

/-- Validity of every key and value of a map body. -/
def validP : MPairs → Bool
  | .pnil => true
  | .pcons k v ps => validV k && validV v && validP ps
end

mutual
/-- Decoding-step count of a value (fuel measure for `dec`). -/
def nodesV : MValue → Nat
  | .nilv => 1
  | .boolv _ => 1
  | .intv _ => 1
  | .strv _ => 1
  | .arrv vs => nodesL vs + 1
  | .mapv ps => nodesP ps + 1

/-- Decoding-step count of an array body. -/
def nodesL : MList → Nat
  | .mnil => 0
  | .mcons v vs => nodesV v + nodesL vs + 1

/-- Decoding-step count of a map body. -/
def nodesP : MPairs → Nat
  | .pnil => 0
  | .pcons k v ps => nodesV k + nodesV v + nodesP ps + 1
end

/-! ## The wire: `send` and `recv` at frame level -/

/-- One ZMQ frame: either the topic frame or a serialized-payload frame. -/
inductive MFrame where
  | top (t : String)
  | buf (bs : List Nat)

/-- `Msg_Dispatcher.send(self, topic, payload)` at wire level, from the
source: `self.socket.send(str(topic), flags=zmq.SNDMORE)` pushes the topic
frame, `self.socket.send(serializer.dumps(payload))` pushes the payload
frame. -/
def Msg_Dispatcher.sendWire (topic : String) (payload : MValue) : List MFrame :=
  [.top topic, .buf (serializer.dumps payload)]

/-- SUB-socket topic filtering: a subscriber holding subscriptions `subs`
receives a message iff its topic starts with one of the subscribed
prefixes. -/
def subMatch (subs : List String) (topic : String) : Bool :=
  subs.any (fun p => List.isPrefixOf p.toList topic.toList)

/-- Frames of one published message as they arrive at a subscriber holding
subscriptions `subs`: the two frames if the topic matches, nothing
otherwise. -/
def deliverSub (subs : List String) (topic : String) (payload : MValue) :
    List MFrame :=
  if subMatch subs topic then Msg_Dispatcher.sendWire topic payload else []

/-- `Msg_Receiver.recv(self)` from the source:
`topic = self.socket.recv(); payload = serializer.loads(self.socket.recv());
return topic, payload` — reads the topic frame, decodes the payload frame. -/
def Msg_Receiver.recv : List MFrame → Option ((String × MValue) × List MFrame)
  | .top t :: .buf bs :: rest =>
    match serializer.loads bs with
    | some v => some ((t, v), rest)
    | none => none
  | _ => none

/-! ## Round-trip lemmas for the serializer -/

theorem beBytes_length (k n : Nat) : (beBytes k n).length = k := by
  induction k generalizing n with
  | zero => simp [beBytes]
  | succ j ih => simp [beBytes, ih]

theorem takeBE_beBytes (k : Nat) : ∀ (acc n : Nat) (bs : List Nat), n < 256 ^ k →
    takeBE k acc (beBytes k n ++ bs) = some (acc * 256 ^ k + n, bs) := by
  induction k with
  | zero =>
    intro acc n bs hn
    simp only [Nat.pow_zero, Nat.lt_one_iff] at hn
    simp [beBytes, takeBE, hn]
  | succ j ih =>
    intro acc n bs hn
    have hmod : n % 256 ^ j < 256 ^ j := Nat.mod_lt _ (by positivity)
    simp only [beBytes, List.cons_append, takeBE, List.append_eq]
    rw [ih (acc * 256 + n / 256 ^ j) (n % 256 ^ j) bs hmod]
    have hdm : 256 ^ j * (n / 256 ^ j) + n % 256 ^ j = n := Nat.div_add_mod n (256 ^ j)
    have key : (acc * 256 + n / 256 ^ j) * 256 ^ j + n % 256 ^ j = acc * 256 ^ (j + 1) + n := by
      calc (acc * 256 + n / 256 ^ j) * 256 ^ j + n % 256 ^ j
          = acc * (256 ^ j * 256) + (256 ^ j * (n / 256 ^ j) + n % 256 ^ j) := by ring
        _ = acc * 256 ^ (j + 1) + n := by rw [hdm, Nat.pow_succ]
    rw [key]

theorem takeN_append (s bs : List Nat) : takeN s.length (s ++ bs) = some (s, bs) := by
  induction s with
  | nil => simp [takeN]
  | cons b s ih => simp [takeN, ih]

theorem dec_many_zero (fuel : Nat) (bs : List Nat) :
    dec fuel (.many 0) bs = some (.list .mnil, bs) := by
  cases fuel <;> rfl

theorem dec_pairs_zero (fuel : Nat) (bs : List Nat) :
    dec fuel (.manyPairs 0) bs = some (.pairs .pnil, bs) := by
  cases fuel <;> rfl

theorem dec_one_cons (fuel b : Nat) (bs : List Nat) :
    dec (fuel + 1) .one (b :: bs) =
      decHead (fun n r => dec fuel (.many n) r)
        (fun n r => dec fuel (.manyPairs n) r) b bs := rfl

theorem dec_many_succ (fuel n : Nat) (bs : List Nat) :
    dec (fuel + 1) (.many (n + 1)) bs =
      match dec fuel .one bs with
      | some (.val v, r) =>
        match dec fuel (.many n) r with
        | some (.list vs, r2) => some (.list (.mcons v vs), r2)
        | _ => none
      | _ => none := rfl

theorem dec_pairs_succ (fuel n : Nat) (bs : List Nat) :
    dec (fuel + 1) (.manyPairs (n + 1)) bs =
      match dec fuel .one bs with
      | some (.val k, r) =>
        match dec fuel .one r with
        | some (.val v, r2) =>
          match dec fuel (.manyPairs n) r2 with
          | some (.pairs ps, r3) => some (.pairs (.pcons k v ps), r3)
          | _ => none
        | _ => none
      | _ => none := rfl

theorem decHead_posfixint (karr kmap : Nat → List Nat → Option (DecRes × List Nat))
    (b : Nat) (bs : List Nat) (h : b < 0x80) :
    decHead karr kmap b bs = some (.val (.intv (Int.ofNat b)), bs) := by
  unfold decHead
  rw [if_pos h]

theorem decHead_fixmap (karr kmap : Nat → List Nat → Option (DecRes × List Nat))
    (b : Nat) (bs : List Nat) (h1 : 0x80 ≤ b) (h2 : b < 0x90) :
    decHead karr kmap b bs = wrapMap (kmap (b - 0x80) bs) := by
  unfold decHead
  rw [if_neg (by omega), if_neg (by omega), if_pos h2]

theorem decHead_fixarr (karr kmap : Nat → List Nat → Option (DecRes × List Nat))
    (b : Nat) (bs : List Nat) (h1 : 0x90 ≤ b) (h2 : b < 0xa0) :
    decHead karr kmap b bs = wrapArr (karr (b - 0x90) bs) := by
  unfold decHead
  rw [if_neg (by omega), if_neg (by omega), if_neg (by omega), if_pos h2]

theorem decHead_fixstr (karr kmap : Nat → List Nat → Option (DecRes × List Nat))
    (b : Nat) (bs : List Nat) (h1 : 0xa0 ≤ b) (h2 : b < 0xc0) :
    decHead karr kmap b bs = wrapStr (takeN (b - 0xa0) bs) := by
  unfold decHead
  rw [if_neg (by omega), if_neg (by omega), if_neg (by omega), if_neg (by omega), if_pos h2]

theorem decHead_negfixint (karr kmap : Nat → List Nat → Option (DecRes × List Nat))
    (b : Nat) (bs : List Nat) (h : 0xe0 ≤ b) :
    decHead karr kmap b bs = some (.val (.intv ((b : Int) - 0x100)), bs) := by
  unfold decHead
  rw [if_neg (by omega), if_pos h]

theorem decHead_c0 (karr kmap : Nat → List Nat → Option (DecRes × List Nat)) (bs : List Nat) :
    decHead karr kmap 0xc0 bs = some (.val .nilv, bs) := rfl

theorem decHead_c2 (karr kmap : Nat → List Nat → Option (DecRes × List Nat)) (bs : List Nat) :
    decHead karr kmap 0xc2 bs = some (.val (.boolv false), bs) := rfl

theorem decHead_c3 (karr kmap : Nat → List Nat → Option (DecRes × List Nat)) (bs : List Nat) :
    decHead karr kmap 0xc3 bs = some (.val (.boolv true), bs) := rfl

theorem decHead_cc (karr kmap : Nat → List Nat → Option (DecRes × List Nat)) (bs : List Nat) :
    decHead karr kmap 0xcc bs = wrapInt Int.ofNat (take1 bs) := rfl

theorem decHead_cd (karr kmap : Nat → List Nat → Option (DecRes × List Nat)) (bs : List Nat) :
    decHead karr kmap 0xcd bs = wrapInt Int.ofNat (takeBE 2 0 bs) := rfl

theorem decHead_ce (karr kmap : Nat → List Nat → Option (DecRes × List Nat)) (bs : List Nat) :
    decHead karr kmap 0xce bs = wrapInt Int.ofNat (takeBE 4 0 bs) := rfl

theorem decHead_cf (karr kmap : Nat → List Nat → Option (DecRes × List Nat)) (bs : List Nat) :
    decHead karr kmap 0xcf bs = wrapInt Int.ofNat (takeBE 8 0 bs) := rfl

theorem decHead_d0 (karr kmap : Nat → List Nat → Option (DecRes × List Nat)) (bs : List Nat) :
    decHead karr kmap 0xd0 bs = wrapInt (sdec 0x100) (take1 bs) := rfl

theorem decHead_d1 (karr kmap : Nat → List Nat → Option (DecRes × List Nat)) (bs : List Nat) :
    decHead karr kmap 0xd1 bs = wrapInt (sdec 0x10000) (takeBE 2 0 bs) := rfl

theorem decHead_d2 (karr kmap : Nat → List Nat → Option (DecRes × List Nat)) (bs : List Nat) :
    decHead karr kmap 0xd2 bs = wrapInt (sdec 0x100000000) (takeBE 4 0 bs) := rfl

theorem decHead_d3 (karr kmap : Nat → List Nat → Option (DecRes × List Nat)) (bs : List Nat) :
    decHead karr kmap 0xd3 bs = wrapInt (sdec 0x10000000000000000) (takeBE 8 0 bs) := rfl

theorem decHead_d9 (karr kmap : Nat → List Nat → Option (DecRes × List Nat)) (bs : List Nat) :
    decHead karr kmap 0xd9 bs = strWithLen (take1 bs) := rfl

theorem decHead_da (karr kmap : Nat → List Nat → Option (DecRes × List Nat)) (bs : List Nat) :
    decHead karr kmap 0xda bs = strWithLen (takeBE 2 0 bs) := rfl

theorem decHead_db (karr kmap : Nat → List Nat → Option (DecRes × List Nat)) (bs : List Nat) :
    decHead karr kmap 0xdb bs = strWithLen (takeBE 4 0 bs) := rfl

theorem decHead_dc (karr kmap : Nat → List Nat → Option (DecRes × List Nat)) (bs : List Nat) :
    decHead karr kmap 0xdc bs = arrWithLen karr (takeBE 2 0 bs) := rfl

theorem decHead_dd (karr kmap : Nat → List Nat → Option (DecRes × List Nat)) (bs : List Nat) :
    decHead karr kmap 0xdd bs = arrWithLen karr (takeBE 4 0 bs) := rfl

theorem decHead_de (karr kmap : Nat → List Nat → Option (DecRes × List Nat)) (bs : List Nat) :
    decHead karr kmap 0xde bs = mapWithLen kmap (takeBE 2 0 bs) := rfl

theorem decHead_df (karr kmap : Nat → List Nat → Option (DecRes × List Nat)) (bs : List Nat) :
    decHead karr kmap 0xdf bs = mapWithLen kmap (takeBE 4 0 bs) := rfl

mutual
theorem nodesV_le_encV (v : MValue) : nodesV v + 1 ≤ 2 * (encV v).length := by
  match v with
  | .nilv => simp [nodesV, encV]
  | .boolv b => cases b <;> simp [nodesV, encV]
  | .intv i =>
    have h : 1 ≤ (encInt i).length := by
      unfold encInt
      split_ifs <;> simp [beBytes_length]
    simp only [nodesV, encV]
    omega
  | .strv s =>
    have h : 1 ≤ (encV (.strv s)).length := by
      simp only [encV]
      split_ifs <;> simp [beBytes_length]
    simp only [nodesV]
    omega
  | .arrv vs =>
    have ih := nodesL_le_encL vs
    have h : (encL vs).length + 1 ≤ (encV (.arrv vs)).length := by
      simp only [encV]
      split_ifs <;> simp [beBytes_length]
    simp only [nodesV]
    omega
  | .mapv ps =>
    have ih := nodesP_le_encP ps
    have h : (encP ps).length + 1 ≤ (encV (.mapv ps)).length := by
      simp only [encV]
      split_ifs <;> simp [beBytes_length]
    simp only [nodesV]
    omega

theorem nodesL_le_encL (vs : MList) : nodesL vs ≤ 2 * (encL vs).length := by
  match vs with
  | .mnil => simp [nodesL, encL]
  | .mcons v vs =>
    have ih1 := nodesV_le_encV v
    have ih2 := nodesL_le_encL vs
    simp only [nodesL, encL, List.length_append]
    omega

theorem nodesP_le_encP (ps : MPairs) : nodesP ps ≤ 2 * (encP ps).length := by
  match ps with
  | .pnil => simp [nodesP, encP]
  | .pcons k v ps =>
    have ih1 := nodesV_le_encV k
    have ih2 := nodesV_le_encV v
    have ih3 := nodesP_le_encP ps
    simp only [nodesP, encP, List.length_append]
    omega
end

theorem take1_cons (b : Nat) (bs : List Nat) : take1 (b :: bs) = some (b, bs) := rfl

theorem wrapInt_some (f : Nat → Int) (n : Nat) (r : List Nat) :
    wrapInt f (some (n, r)) = some (.val (.intv (f n)), r) := rfl

theorem wrapStr_some (s r : List Nat) :
    wrapStr (some (s, r)) = some (.val (.strv s), r) := rfl

theorem wrapArr_some (vs : MList) (r : List Nat) :
    wrapArr (some (.list vs, r)) = some (.val (.arrv vs), r) := rfl

theorem wrapMap_some (ps : MPairs) (r : List Nat) :
    wrapMap (some (.pairs ps, r)) = some (.val (.mapv ps), r) := rfl

theorem strWithLen_some (n : Nat) (r : List Nat) :
    strWithLen (some (n, r)) = wrapStr (takeN n r) := rfl

theorem arrWithLen_some (karr : Nat → List Nat → Option (DecRes × List Nat))
    (n : Nat) (r : List Nat) : arrWithLen karr (some (n, r)) = wrapArr (karr n r) := rfl

theorem mapWithLen_some (kmap : Nat → List Nat → Option (DecRes × List Nat))
    (n : Nat) (r : List Nat) : mapWithLen kmap (some (n, r)) = wrapMap (kmap n r) := rfl

theorem sdec_high (m n : Nat) (h : m ≤ 2 * n) : sdec m n = (n : Int) - (m : Int) := by
  unfold sdec
  rw [if_neg (by omega)]

/-- One decoding step undoes `encInt` on any int64/uint64 value. -/
theorem dec_encInt (i : Int) (f : Nat) (rest : List Nat)
    (h1 : -0x8000000000000000 ≤ i) (h2 : i < 0x10000000000000000) :
    dec (f + 1) .one (encInt i ++ rest) = some (.val (.intv i), rest) := by
  unfold encInt
  split_ifs with hpos hA hB hC hD hE hF hG hH
  · -- positive fixint
    simp only [List.singleton_append]
    rw [dec_one_cons, decHead_posfixint _ _ _ _ (by omega)]
    simp only [Option.some.injEq, Prod.mk.injEq, DecRes.val.injEq, MValue.intv.injEq, and_true, Int.ofNat_eq_coe]
    omega
  · -- uint8
    simp only [List.cons_append, List.nil_append]
    rw [dec_one_cons, decHead_cc, take1_cons, wrapInt_some]
    simp only [Option.some.injEq, Prod.mk.injEq, DecRes.val.injEq, MValue.intv.injEq, and_true, Int.ofNat_eq_coe]
    omega
  · -- uint16
    simp only [List.cons_append]
    rw [dec_one_cons, decHead_cd, takeBE_beBytes 2 0 i.toNat rest (by norm_num; omega)]
    simp only [Nat.zero_mul, Nat.zero_add]
    rw [wrapInt_some]
    simp only [Option.some.injEq, Prod.mk.injEq, DecRes.val.injEq, MValue.intv.injEq, and_true, Int.ofNat_eq_coe]
    omega
  · -- uint32
    simp only [List.cons_append]
    rw [dec_one_cons, decHead_ce, takeBE_beBytes 4 0 i.toNat rest (by norm_num; omega)]
    simp only [Nat.zero_mul, Nat.zero_add]
    rw [wrapInt_some]
    simp only [Option.some.injEq, Prod.mk.injEq, DecRes.val.injEq, MValue.intv.injEq, and_true, Int.ofNat_eq_coe]
    omega
  · -- uint64
    simp only [List.cons_append]
    rw [dec_one_cons, decHead_cf, takeBE_beBytes 8 0 i.toNat rest (by norm_num; omega)]
    simp only [Nat.zero_mul, Nat.zero_add]
    rw [wrapInt_some]
    simp only [Option.some.injEq, Prod.mk.injEq, DecRes.val.injEq, MValue.intv.injEq, and_true, Int.ofNat_eq_coe]
    omega
  · -- negative fixint
    simp only [List.singleton_append]
    rw [dec_one_cons, decHead_negfixint _ _ _ _ (by omega)]
    simp only [Option.some.injEq, Prod.mk.injEq, DecRes.val.injEq, MValue.intv.injEq, and_true, Int.ofNat_eq_coe]
    omega
  · -- int8
    simp only [List.cons_append, List.nil_append]
    rw [dec_one_cons, decHead_d0, take1_cons, wrapInt_some, sdec_high _ _ (by omega)]
    simp only [Option.some.injEq, Prod.mk.injEq, DecRes.val.injEq, MValue.intv.injEq, and_true, Int.ofNat_eq_coe]
    omega
  · -- int16
    simp only [List.cons_append]
    rw [dec_one_cons, decHead_d1, takeBE_beBytes 2 0 (i + 0x10000).toNat rest (by norm_num; omega)]
    simp only [Nat.zero_mul, Nat.zero_add]
    rw [wrapInt_some, sdec_high _ _ (by omega)]
    simp only [Option.some.injEq, Prod.mk.injEq, DecRes.val.injEq, MValue.intv.injEq, and_true, Int.ofNat_eq_coe]
    omega
  · -- int32
    simp only [List.cons_append]
    rw [dec_one_cons, decHead_d2,
      takeBE_beBytes 4 0 (i + 0x100000000).toNat rest (by norm_num; omega)]
    simp only [Nat.zero_mul, Nat.zero_add]
    rw [wrapInt_some, sdec_high _ _ (by omega)]
    simp only [Option.some.injEq, Prod.mk.injEq, DecRes.val.injEq, MValue.intv.injEq, and_true, Int.ofNat_eq_coe]
    omega
  · -- int64
    simp only [List.cons_append]
    rw [dec_one_cons, decHead_d3,
      takeBE_beBytes 8 0 (i + 0x10000000000000000).toNat rest (by norm_num; omega)]
    simp only [Nat.zero_mul, Nat.zero_add]
    rw [wrapInt_some, sdec_high _ _ (by omega)]
    simp only [Option.some.injEq, Prod.mk.injEq, DecRes.val.injEq, MValue.intv.injEq, and_true, Int.ofNat_eq_coe]
    omega

mutual
/-- Decoding undoes encoding for any valid value, with any fuel above the
value's step count and any trailing bytes. -/
theorem dec_encV (v : MValue) : ∀ (fuel : Nat) (rest : List Nat),
    validV v = true → nodesV v < fuel →
    dec fuel .one (encV v ++ rest) = some (.val v, rest) := by
  match v with
  | .nilv =>
    intro fuel rest _ hf
    obtain ⟨f, rfl⟩ : ∃ f, fuel = f + 1 := ⟨fuel - 1, by omega⟩
    rfl
  | .boolv b =>
    intro fuel rest _ hf
    obtain ⟨f, rfl⟩ : ∃ f, fuel = f + 1 := ⟨fuel - 1, by omega⟩
    cases b <;> rfl
  | .intv i =>
    intro fuel rest hv hf
    obtain ⟨f, rfl⟩ : ∃ f, fuel = f + 1 := ⟨fuel - 1, by omega⟩
    have hb : -0x8000000000000000 ≤ i ∧ i < 0x10000000000000000 := by
      simpa [validV, Bool.and_eq_true, decide_eq_true_eq] using hv
    simp only [encV]
    exact dec_encInt i f rest hb.1 hb.2
  | .strv s =>
    intro fuel rest hv hf
    obtain ⟨f, rfl⟩ : ∃ f, fuel = f + 1 := ⟨fuel - 1, by omega⟩
    have hs : s.length < 0x100000000 := by
      have h := hv
      simp only [validV, Bool.and_eq_true, decide_eq_true_eq] at h
      exact h.1
    simp only [encV]
    split_ifs with h32 h8 h16
    · simp only [List.cons_append]
      rw [dec_one_cons, decHead_fixstr _ _ _ _ (by omega) (by omega)]
      simp only [Nat.add_sub_cancel_left]
      rw [takeN_append, wrapStr_some]
    · simp only [List.cons_append]
      rw [dec_one_cons, decHead_d9, take1_cons, strWithLen_some, takeN_append, wrapStr_some]
    · simp only [List.cons_append, List.append_assoc]
      rw [dec_one_cons, decHead_da, takeBE_beBytes 2 0 s.length (s ++ rest) (by norm_num; omega)]
      simp only [Nat.zero_mul, Nat.zero_add]
      rw [strWithLen_some, takeN_append, wrapStr_some]
    · simp only [List.cons_append, List.append_assoc]
      rw [dec_one_cons, decHead_db, takeBE_beBytes 4 0 s.length (s ++ rest) (by norm_num; omega)]
      simp only [Nat.zero_mul, Nat.zero_add]
      rw [strWithLen_some, takeN_append, wrapStr_some]
  | .arrv vs =>
    intro fuel rest hv hf
    obtain ⟨f, rfl⟩ : ∃ f, fuel = f + 1 := ⟨fuel - 1, by omega⟩
    have hvp : vs.mlen < 0x100000000 ∧ validL vs = true := by
      simpa [validV, Bool.and_eq_true, decide_eq_true_eq] using hv
    have hnl : nodesL vs < f := by
      simp only [nodesV] at hf
      omega
    simp only [encV]
    split_ifs with h16 h32
    · simp only [List.cons_append]
      rw [dec_one_cons, decHead_fixarr _ _ _ _ (by omega) (by omega)]
      simp only [Nat.add_sub_cancel_left]
      rw [dec_encL vs f rest hvp.2 hnl, wrapArr_some]
    · simp only [List.cons_append, List.append_assoc]
      rw [dec_one_cons, decHead_dc,
        takeBE_beBytes 2 0 vs.mlen (encL vs ++ rest) (by norm_num; omega)]
      simp only [Nat.zero_mul, Nat.zero_add, arrWithLen_some]
      rw [dec_encL vs f rest hvp.2 hnl, wrapArr_some]
    · simp only [List.cons_append, List.append_assoc]
      rw [dec_one_cons, decHead_dd,
        takeBE_beBytes 4 0 vs.mlen (encL vs ++ rest) (by norm_num; omega)]
      simp only [Nat.zero_mul, Nat.zero_add, arrWithLen_some]
      rw [dec_encL vs f rest hvp.2 hnl, wrapArr_some]
  | .mapv ps =>
    intro fuel rest hv hf
    obtain ⟨f, rfl⟩ : ∃ f, fuel = f + 1 := ⟨fuel - 1, by omega⟩
    have hvp : ps.plen < 0x100000000 ∧ validP ps = true := by
      simpa [validV, Bool.and_eq_true, decide_eq_true_eq] using hv
    have hnp : nodesP ps < f := by
      simp only [nodesV] at hf
      omega
    simp only [encV]
    split_ifs with h16 h32
    · simp only [List.cons_append]
      rw [dec_one_cons, decHead_fixmap _ _ _ _ (by omega) (by omega)]
      simp only [Nat.add_sub_cancel_left]
      rw [dec_encP ps f rest hvp.2 hnp, wrapMap_some]
    · simp only [List.cons_append, List.append_assoc]
      rw [dec_one_cons, decHead_de,
        takeBE_beBytes 2 0 ps.plen (encP ps ++ rest) (by norm_num; omega)]
      simp only [Nat.zero_mul, Nat.zero_add, mapWithLen_some]
      rw [dec_encP ps f rest hvp.2 hnp, wrapMap_some]
    · simp only [List.cons_append, List.append_assoc]
      rw [dec_one_cons, decHead_df,
        takeBE_beBytes 4 0 ps.plen (encP ps ++ rest) (by norm_num; omega)]
      simp only [Nat.zero_mul, Nat.zero_add, mapWithLen_some]
      rw [dec_encP ps f rest hvp.2 hnp, wrapMap_some]

/-- Decoding undoes encoding for the elements of a valid array body. -/
theorem dec_encL (vs : MList) : ∀ (fuel : Nat) (rest : List Nat),
    validL vs = true → nodesL vs < fuel →
    dec fuel (.many vs.mlen) (encL vs ++ rest) = some (.list vs, rest) := by
  match vs with
  | .mnil =>
    intro fuel rest _ _
    simp only [MList.mlen, encL, List.nil_append]
    exact dec_many_zero fuel rest
  | .mcons v vs =>
    intro fuel rest hv hf
    obtain ⟨f, rfl⟩ : ∃ f, fuel = f + 1 := ⟨fuel - 1, by omega⟩
    have hd : validV v = true ∧ validL vs = true := by
      simpa [validL, Bool.and_eq_true] using hv
    have h1 : nodesV v < f := by
      simp only [nodesL] at hf
      omega
    have h2 : nodesL vs < f := by
      simp only [nodesL] at hf
      omega
    simp only [MList.mlen, encL, List.append_assoc]
    rw [dec_many_succ]
    simp only [dec_encV v f (encL vs ++ rest) hd.1 h1, dec_encL vs f rest hd.2 h2]

/-- Decoding undoes encoding for the entries of a valid map body. -/
theorem dec_encP (ps : MPairs) : ∀ (fuel : Nat) (rest : List Nat),
    validP ps = true → nodesP ps < fuel →
    dec fuel (.manyPairs ps.plen) (encP ps ++ rest) = some (.pairs ps, rest) := by
  match ps with
  | .pnil =>
    intro fuel rest _ _
    simp only [MPairs.plen, encP, List.nil_append]
    exact dec_pairs_zero fuel rest
  | .pcons k v ps =>
    intro fuel rest hv hf
    obtain ⟨f, rfl⟩ : ∃ f, fuel = f + 1 := ⟨fuel - 1, by omega⟩
    have hd : validV k = true ∧ validV v = true ∧ validP ps = true := by
      simpa [validP, Bool.and_eq_true, and_assoc] using hv
    have h1 : nodesV k < f := by
      simp only [nodesP] at hf
      omega
    have h2 : nodesV v < f := by
      simp only [nodesP] at hf
      omega
    have h3 : nodesP ps < f := by
      simp only [nodesP] at hf
      omega
    simp only [MPairs.plen, encP, List.append_assoc]
    rw [dec_pairs_succ]
    simp only [dec_encV k f (encV v ++ (encP ps ++ rest)) hd.1 h1,
      dec_encV v f (encP ps ++ rest) hd.2.1 h2,
      dec_encP ps f rest hd.2.2 h3]
end

/-- `serializer.loads` inverts `serializer.dumps` on every valid payload. -/
theorem loads_dumps (v : MValue) (hv : validV v = true) :
    serializer.loads (serializer.dumps v) = some v := by
  unfold serializer.loads serializer.dumps
  have h1 := nodesV_le_encV v
  have h2 : dec (2 * (encV v).length + 1) .one (encV v ++ []) = some (.val v, []) :=
    dec_encV v (2 * (encV v).length + 1) [] hv (by omega)
  rw [List.append_nil] at h2
  rw [h2]

/-- C4: a payload pushed by the dispatcher's `send` (topic frame followed by
the `serializer.dumps` frame) and read back by a receiver's `recv` on a
subscriber one of whose subscribed prefixes matches the topic yields exactly
the payload that was sent (so in particular its `subject` entry is
preserved): `serializer.loads` after `serializer.dumps` is the identity on
(msgpack-encodable) payloads. -/
theorem send_recv_roundtrip (subs : List String) (topic : String) (p : MValue)
    (hv : validV p = true) (hm : subMatch subs topic = true) :
    Msg_Receiver.recv (deliverSub subs topic p) = some ((topic, p), []) := by
  unfold deliverSub
  rw [if_pos hm]
  unfold Msg_Dispatcher.sendWire
  simp only [Msg_Receiver.recv]
  rw [loads_dumps p hv]

/-- A concrete notification payload:
`{'subject': 'ping', 'v': 300}` with strings as byte lists. -/
def pingPayload : MValue :=
  .mapv (.pcons (.strv [115, 117, 98, 106, 101, 99, 116]) (.strv [112, 105, 110, 103])
    (.pcons (.strv [118]) (.intv 300) .pnil))

/-- Witness for C4: the concrete payload `pingPayload` published on topic
`notify.ping` is delivered to a subscriber of prefix `notify.` and decodes
back to itself. -/
theorem send_recv_roundtrip_witness :
    Msg_Receiver.recv (deliverSub ["notify."] "notify.ping" pingPayload) =
      some (("notify.ping", pingPayload), []) :=
  send_recv_roundtrip ["notify."] "notify.ping" pingPayload (by decide) (by decide)
